import Mathlib

/-!
Verification development for the multi-provider LLM inference client of this
repository (file `src/llms/__init__.py`).  Python strings are embedded as
`List Char`; Python dicts for messages and content parts are embedded as
structures; fallible code returns `Except`; the bounded retry loops are
embedded with an explicit fuel argument that is always initialised large
enough to be unreachable (each recursive step strictly consumes fuel and the
measured quantity together, as noted at each definition), so that every
definition is structurally recursive and executable.
-/

/-- Python strings, embedded as lists of characters. -/
abbrev Str := List Char

/-! ## Generic substring machinery (Python `in`, `find`, `split`, `partition`, `replace`, `count`) -/

/-- Does `needle` occur in `hay` starting at index `i`?  (Used to model
Python substring search.) -/
def subAt (hay needle : Str) (i : Nat) : Bool :=
  needle.isPrefixOf (hay.drop i)

/-- Index of the first occurrence of `needle` in `hay` (Python `str.find`,
as an `Option`): the smallest `i` at which `needle` occurs. -/
def findFirstSub (hay needle : Str) : Option Nat :=
  (List.range (hay.length + 1)).find? (subAt hay needle)

/-- Index of the last occurrence of `needle` in `hay` (Python `str.rfind`,
as an `Option`): the largest `i` at which `needle` occurs. -/
def findLastSub (hay needle : Str) : Option Nat :=
  ((List.range (hay.length + 1)).reverse).find? (subAt hay needle)

/-- Python `needle in hay` (substring containment). -/
def containsSub (hay needle : Str) : Bool :=
  (findFirstSub hay needle).isSome

/-- Worker for `splitOnSub`.  `acc` holds the chars of the current piece in
reverse.  `fuel` only bounds the recursion: each step consumes one unit of
fuel and at least one char of `hay`, so with initial `fuel = hay.length`
the fuel-exhausted branch is unreachable (it is only hit when `hay = []`,
which the first branch already covers). -/
def splitOnSubF (needle : Str) : Nat → Str → Str → List Str
  | _, [], acc => [acc.reverse]
  | 0, hay, acc => [acc.reverse ++ hay]
  | fuel + 1, c :: rest, acc =>
    if needle.isPrefixOf (c :: rest) then
      acc.reverse :: splitOnSubF needle fuel (rest.drop (needle.length - 1)) []
    else
      splitOnSubF needle fuel rest (c :: acc)

/-- Python `hay.split(needle)` for a nonempty `needle`: the pieces between
consecutive non-overlapping occurrences of `needle`, scanned left to right. -/
def splitOnSub (hay needle : Str) : List Str :=
  splitOnSubF needle hay.length hay []

/-- Python `hay.count(needle)` for a nonempty `needle` (non-overlapping
occurrences): one less than the number of pieces of `hay.split(needle)`. -/
def countSub (hay needle : Str) : Nat :=
  (splitOnSub hay needle).length - 1

/-- Python `hay.partition(needle)[2]`: everything after the first occurrence
of `needle`, and `""` when `needle` does not occur. -/
def partitionAfter (hay needle : Str) : Str :=
  match findFirstSub hay needle with
  | none => []
  | some i => hay.drop (i + needle.length)

/-- Python `hay.replace(needle, repl)` for a nonempty `needle`: equals
`repl.join(hay.split(needle))`. -/
def replaceAllSub (hay needle repl : Str) : Str :=
  List.intercalate repl (splitOnSub hay needle)

/-! ## The code-block extractor (`clean_code`, `noop_code`, `parse_python_backticks`,
source lines 1117-1155) -/

/-- Source line 1117-1120: the placeholder stub returned when no code can be
recovered (the triple-quoted literal after `.strip()`). -/
def noop_code : Str :=
  "def transform(grid_lst: list[list[int]]) -> list[list[int]]:\n    raise NotImplementedError()".toList

/-- Source lines 1123-1124: `clean_code` replaces every tab by four spaces. -/
def clean_code (s : Str) : Str :=
  replaceAllSub s ['\t'] "    ".toList

/-- The fence marker searched by `parse_python_backticks`. -/
def fenceStr : Str := "```python".toList

/-- The fence marker followed by a newline, as required by the extraction regexes. -/
def fenceNl : Str := "```python\n".toList

/-- The closing marker of the primary extraction regex. -/
def closeFenceNl : Str := "\n```".toList

/-- The closing marker of the fallback extraction regex. -/
def closeTickNl : Str := "\n`".toList

/-- The reasoning-delimiter marker used when no fenced region exists. -/
def reasoningClose : Str := "</reasoning>".toList

/-- The required function-signature marker used to choose among several
fenced regions. -/
def transformMarker : Str := "def transform(".toList

/-- Model of `re.search(r"```python\n(.*)\n" + close, s, DOTALL)` as used on
source lines 1144 and 1148: the match must start at an occurrence of
"```python\n" and, since the greedy `(.*)` backtracks from the end, the
captured group extends to the last occurrence of `close` in the remainder.
`parse_python_backticks` only evaluates this after asserting that the text
contains exactly one "```python", so taking the first fence occurrence is
exact. -/
def reSearchFence (s : Str) (close : Str) : Option Str :=
  match findFirstSub s fenceNl with
  | none => none
  | some i =>
    let tail := s.drop (i + fenceNl.length)
    match findLastSub tail close with
    | none => none
    | some j => some (tail.take j)

/-- Source lines 1142-1155: the stage of `parse_python_backticks` that runs
after the single-fence assertion: primary regex, fallback regex, then the
partition fallback. -/
def extractStage (s : Str) : Except Str Str :=
  match reSearchFence s closeFenceNl with
  | some g => .ok (clean_code g)
  | none =>
    match reSearchFence s closeTickNl with
    | some g => .ok (clean_code g)
    | none => .ok (clean_code (partitionAfter s fenceStr))

/-- Source lines 1127-1155: `parse_python_backticks`.  With no fenced region,
fall back to the text after the reasoning delimiter, or the placeholder stub.
With several fenced regions, scan the split chunks from the last backward and
keep the first chunk containing the function-signature marker; the
`assert s.count("```python") == 1` that follows fails (AssertionError) when
no chunk contains it. -/
def parse_python_backticks (s : Str) : Except Str Str :=
  if countSub s fenceStr = 0 then
    let out := partitionAfter s reasoningClose
    if out = [] then .ok noop_code else .ok (clean_code out)
  else
    let s1 :=
      if 1 < countSub s fenceStr then
        match ((splitOnSub s fenceStr).reverse).find?
            (fun chunk => containsSub chunk transformMarker) with
        | some chunk => fenceStr ++ chunk
        | none => s
      else s
    if countSub s1 fenceStr = 1 then extractStage s1
    else .error "AssertionError".toList

/-! ## The grid extractor (`parse_2d_arrays_from_string`, source lines 1158-1178) -/

/-- Python whitespace characters recognised by `\s` and `str.strip()`
(ASCII model). -/
def isPyWs (c : Char) : Bool :=
  c = ' ' || c = '\t' || c = '\n' || c = '\r' || c = '\x0b' || c = '\x0c'

/-- Python `str.strip()` (ASCII model): drop leading and trailing whitespace. -/
def pyStrip (s : Str) : Str :=
  ((s.dropWhile isPyWs).reverse.dropWhile isPyWs).reverse

/-- Digit-string worker for `pyInt`: accepts further digits with single
underscores between digits, as Python `int` does. -/
def pyDigitsGo : Nat → Str → Option Nat
  | acc, [] => some acc
  | acc, '_' :: rest =>
    match rest with
    | [] => none
    | c :: rest2 =>
      if c.isDigit then pyDigitsGo (acc * 10 + (c.toNat - 48)) rest2 else none
  | acc, c :: rest =>
    if c.isDigit then pyDigitsGo (acc * 10 + (c.toNat - 48)) rest else none

/-- A nonempty digit string (with Python's underscore grouping) to its value. -/
def pyDigitsVal : Str → Option Nat
  | [] => none
  | c :: rest => if c.isDigit then pyDigitsGo (c.toNat - 48) rest else none

/-- Model of Python `int()` applied to an already-stripped token (ASCII
decimal model): an optional sign followed by digits; anything else raises
ValueError, modelled as `none`. -/
def pyInt : Str → Option Int
  | '+' :: rest => (pyDigitsVal rest).map (fun n => (n : Int))
  | '-' :: rest => (pyDigitsVal rest).map (fun n => -(n : Int))
  | s => (pyDigitsVal s).map (fun n => (n : Int))

/-- Model of matching `\[[^\[\]]*\]` at the head of `s`: an opening bracket,
then characters other than brackets (the greedy class cannot backtrack
usefully since it excludes the closing bracket), then a closing bracket.
Returns the consumed text (brackets included) and the rest. -/
def matchInnerArr : Str → Option (Str × Str)
  | '[' :: rest =>
    let content := rest.takeWhile (fun c => c != '[' && c != ']')
    let rest2 := rest.dropWhile (fun c => c != '[' && c != ']')
    match rest2 with
    | ']' :: r => some ('[' :: (content ++ [']']), r)
    | _ => none
  | _ => none

/-- Model of the greedy repeat `(?:,\s*\[[^\[\]]*\])*` at the head of `s`:
each unit is a comma, whitespace, and an inner array.  When a unit fails the
whole unit is given back (regex backtracking to fewer units cannot help,
since every unit starts with a comma where the following `\s*\]` cannot
match).  `fuel` only bounds the recursion: each successful unit consumes at
least two chars of `s` and one unit of fuel, so `fuel = s.length` suffices
and the fuel-exhausted branch is unreachable. -/
def matchSepArrsF : Nat → Str → Str × Str
  | 0, s => ([], s)
  | fuel + 1, s =>
    match s with
    | ',' :: rest =>
      let ws := rest.takeWhile isPyWs
      let rest2 := rest.dropWhile isPyWs
      match matchInnerArr rest2 with
      | some (g, r) =>
        let (more, r2) := matchSepArrsF fuel r
        (',' :: (ws ++ g ++ more), r2)
      | none => ([], s)
    | _ => ([], s)

/-- Model of matching the full grid pattern
`\[\s*(\[[^\[\]]*\](?:,\s*\[[^\[\]]*\])*\s*)\]` at the head of `s` (source
line 1160): outer bracket, whitespace, first inner array, the comma-led
repeats, trailing whitespace, closing outer bracket.  Returns capture
group 1 (which starts at the first inner array and includes the trailing
whitespace but not the outer brackets) and the rest after the match. -/
def matchOuterAt : Str → Option (Str × Str)
  | '[' :: rest =>
    let rest1 := rest.dropWhile isPyWs
    match matchInnerArr rest1 with
    | none => none
    | some (g1, r1) =>
      let (more, r2) := matchSepArrsF r1.length r1
      let ws2 := r2.takeWhile isPyWs
      let r3 := r2.dropWhile isPyWs
      match r3 with
      | ']' :: r4 => some (g1 ++ (more ++ ws2), r4)
      | _ => none
  | _ => none

/-- Model of `re.findall(pattern, s)` for the grid pattern: scan left to
right, collect the captured group of each leftmost non-overlapping match and
continue after it, else advance one position.  `fuel` only bounds the
recursion: each step consumes at least one char of `s` and one unit of fuel,
so `fuel = s.length` suffices and the fuel-exhausted branch is unreachable. -/
def scanOuterF : Nat → Str → List Str
  | _, [] => []
  | 0, _ => []
  | fuel + 1, c :: rest =>
    match matchOuterAt (c :: rest) with
    | some (g, r) => g :: scanOuterF fuel r
    | none => scanOuterF fuel rest

/-- All grid-pattern capture groups of `s`, in order of appearance. -/
def scanOuter (s : Str) : List Str :=
  scanOuterF s.length s

/-- Worker for the inner `re.findall(r"\[([^\]]*)\]", match)` on source line
1170: find an opening bracket, capture greedily up to the next closing
bracket; with no closing bracket remaining no later start can match either.
`fuel` only bounds the recursion as in `scanOuterF`. -/
def innerRowsF : Nat → Str → List Str
  | _, [] => []
  | 0, _ => []
  | fuel + 1, '[' :: rest =>
    let row := rest.takeWhile (fun c => c != ']')
    let rest2 := rest.dropWhile (fun c => c != ']')
    match rest2 with
    | ']' :: rest3 => row :: innerRowsF fuel rest3
    | _ => []
  | fuel + 1, _ :: rest => innerRowsF fuel rest

/-- The bracketed row bodies of a matched group, in order. -/
def innerRows (s : Str) : List Str :=
  innerRowsF s.length s

/-- Source line 1174: the comma-separated tokens of a row after stripping,
with empty tokens dropped (`if n.strip()`). -/
def rowTokens (row : Str) : List Str :=
  ((splitOnSub row [',']).map pyStrip).filter (fun t => t != [])

/-- Sequential effectful map: the first raised error aborts the whole
computation, as a Python loop would. -/
def mapExc {α β : Type} (f : α → Except Str β) : List α → Except Str (List β)
  | [] => .ok []
  | a :: l =>
    match f a with
    | .error e => .error e
    | .ok b => (mapExc f l).map (fun bs => b :: bs)

/-- Source line 1174: `int(n.strip())` on one kept token; a non-numeric
token raises ValueError. -/
def tokToInt (t : Str) : Except Str Int :=
  match pyInt t with
  | some v => .ok v
  | none => .error "ValueError".toList

/-- Source lines 1172-1175: one row of a matched group to its integers. -/
def rowNums (row : Str) : Except Str (List Int) :=
  mapExc tokToInt (rowTokens row)

/-- Source lines 1169-1176: one matched group to its 2-D array. -/
def groupToGrid (g : Str) : Except Str (List (List Int)) :=
  mapExc rowNums (innerRows g)

/-- Source lines 1158-1178: `parse_2d_arrays_from_string`. -/
def parse_2d_arrays_from_string (s : Str) : Except Str (List (List (List Int))) :=
  mapExc groupToGrid (scanOuter s)

/-! ## Data model of the client (`src/llms/__init__.py` with `src.models`) -/

/-- Modelled from the spec: the normalized Usage record ("four non-negative
integers — cacheCreationTokens, cacheReadTokens, inputTokens, outputTokens");
the class `ModelUsage` lives in `src/models.py`, which is not under `src/`,
and the field names are the keyword arguments used throughout
`src/llms/__init__.py`. -/
structure ModelUsage where
  cache_creation_input_tokens : Nat
  cache_read_input_tokens : Nat
  input_tokens : Nat
  output_tokens : Nat
deriving DecidableEq

/-- Modelled from the spec: the fixed model enumeration ("provider family
tag (one of a fixed enumerated set)"); the enum `Model` lives in
`src/models.py`, which is not under `src/`, and the members are the ones
referenced by `src/llms/__init__.py`. -/
inductive Model
  | claude_3_5_sonnet
  | claude_3_5_haiku
  | gpt_4o
  | gpt_4o_mini
  | gpt_5
  | o1_mini
  | o1_preview
  | o3_mini
  | deep_seek_r1
  | baseten_deepseek_r1
  | grok_3
  | grok_4
  | gemini_1_5_pro
  | openrouter_claude_3_5_sonnet
  | openrouter_model
  | openrouter_o1
  | openrouter_o1_mini
  | nvidia_llama_3_1_nemotron_70b_instruct
  | groq_llama_3_2_90b_vision
  | azure_gpt_4o
  | azure_gpt_4o_mini
deriving DecidableEq

/-- The `source` sub-dict written by the Anthropic image reshaping
(source lines 509-515). -/
structure ImgSource where
  data : Str
  media_type : Str
  source_type : Str
deriving DecidableEq

/-- One content part (the source name is `Part`; renamed since Mathlib already declares `Part`), embedding the content dicts of the conversation: the
`type` tag, the text payload (meaningful for text parts; Python dicts for
well-formed image parts simply lack the key), the image url if present, the
reshaped source if present, and whether a `cache_control` key is present
(the code only ever stores the one value `{"type": "ephemeral"}` there, so
presence is a Bool). -/
structure MsgPart where
  ptype : Str
  text : Str
  image_url : Option Str
  source : Option ImgSource
  cache_control : Bool
deriving DecidableEq

/-- A message's `content` value: either a plain string or a list of parts. -/
inductive Content
  | str (s : Str)
  | parts (ps : List MsgPart)
deriving DecidableEq

/-- One message dict of a conversation. -/
structure Message where
  role : Str
  content : Content
deriving DecidableEq

/-- Convenience constructor for a plain text part. -/
def textPart (s : Str) : MsgPart :=
  ⟨"text".toList, s, none, none, false⟩

/-- Python `"\n".join`. -/
def joinNl (l : List Str) : Str :=
  List.intercalate ['\n'] l

/-- Source lines 32-49: `text_only_messages`.  For each message collect the
string content (whatever it is) or the `text` fields of the parts whose
`type` is "text"; keep the message, with the collected strings joined by
newlines, exactly when the collected list is nonempty. -/
def text_only_messages (messages : List Message) : List Message :=
  messages.filterMap (fun m =>
    let strs : List Str :=
      match m.content with
      | .str s => [s]
      | .parts ps =>
        ps.filterMap (fun p => if p.ptype = "text".toList then some p.text else none)
    if strs = [] then none else some ⟨m.role, .str (joinNl strs)⟩)

/-! ## Adapter retry loops (source lines 52-137, 248-331, 428-481) -/

/-- Outcome of one Anthropic attempt: success, a `RateLimitError`, or any
other exception carrying its message string. -/
inductive AnthOutcome
  | ok (text : Str) (usage : ModelUsage)
  | rateLimited
  | fail (msg : Str)
deriving DecidableEq

/-- Outcome of one attempt for the adapters whose loops have a single
generic `except Exception` handler (OpenAI, Gemini): success or an
exception carrying its message string. -/
inductive GenOutcome
  | ok (text : Str) (usage : ModelUsage)
  | fail (msg : Str)
deriving DecidableEq

/-- What a retry loop did: the value returned (absent on give-up), how many
attempts (iterations of the `while True` body) it performed, and the waits
it slept between attempts, in seconds, in order. -/
structure LoopTrace where
  result : Option (Str × ModelUsage)
  attempts : Nat
  sleeps : List Nat
deriving DecidableEq

/-- Source lines 62-136: the retry loop of `get_next_message_anthropic`.
Attempt number `retry_count` has outcome `outcomes retry_count` (the counter
is bumped once per failed attempt, so it equals the number of attempts made
so far).  On `RateLimitError` or a generic error the counter is bumped and
the loop gives up with `None` once it reaches `max_retries`, sleeping
`retry_secs` before the next attempt otherwise; a generic error whose
message contains "invalid x-api-key" returns `None` at once.  `fuel` only
bounds the recursion: it is maintained `≥ max_retries - retry_count - 1`
whenever the loop continues, and each recursive step consumes one unit, so
the fuel-exhausted branch is unreachable from `get_next_message_anthropic`. -/
def anthropicLoopF (outcomes : Nat → AnthOutcome) (retry_secs max_retries retry_count fuel : Nat) :
    LoopTrace :=
  match outcomes retry_count with
  | .ok t u => ⟨some (t, u), 1, []⟩
  | .rateLimited =>
    if max_retries ≤ retry_count + 1 then ⟨none, 1, []⟩
    else
      match fuel with
      | 0 => ⟨none, 1, []⟩
      | fuel' + 1 =>
        let rest := anthropicLoopF outcomes retry_secs max_retries (retry_count + 1) fuel'
        ⟨rest.result, rest.attempts + 1, retry_secs :: rest.sleeps⟩
  | .fail msg =>
    if containsSub msg "invalid x-api-key".toList then ⟨none, 1, []⟩
    else if max_retries ≤ retry_count + 1 then ⟨none, 1, []⟩
    else
      match fuel with
      | 0 => ⟨none, 1, []⟩
      | fuel' + 1 =>
        let rest := anthropicLoopF outcomes retry_secs max_retries (retry_count + 1) fuel'
        ⟨rest.result, rest.attempts + 1, retry_secs :: rest.sleeps⟩

/-- Source lines 52-137: one `get_next_message_anthropic` call, starting
from `retry_count = 0` (called with `retry_secs = 15`, `max_retries = 200`). -/
def get_next_message_anthropic (outcomes : Nat → AnthOutcome) (retry_secs max_retries : Nat) :
    LoopTrace :=
  anthropicLoopF outcomes retry_secs max_retries 0 max_retries

/-- Source lines 258-330: the retry loop of `get_next_message_openai`.  It
has a single generic `except Exception` handler with no authentication
special case: every failure is retried until `max_retries`.  Fuel as in
`anthropicLoopF`. -/
def openaiLoopF (outcomes : Nat → GenOutcome) (retry_secs max_retries retry_count fuel : Nat) :
    LoopTrace :=
  match outcomes retry_count with
  | .ok t u => ⟨some (t, u), 1, []⟩
  | .fail _ =>
    if max_retries ≤ retry_count + 1 then ⟨none, 1, []⟩
    else
      match fuel with
      | 0 => ⟨none, 1, []⟩
      | fuel' + 1 =>
        let rest := openaiLoopF outcomes retry_secs max_retries (retry_count + 1) fuel'
        ⟨rest.result, rest.attempts + 1, retry_secs :: rest.sleeps⟩

/-- Source lines 248-331: one `get_next_message_openai` call, starting from
`retry_count = 0` (called with `retry_secs = 15`, `max_retries = 3`). -/
def get_next_message_openai (outcomes : Nat → GenOutcome) (retry_secs max_retries : Nat) :
    LoopTrace :=
  openaiLoopF outcomes retry_secs max_retries 0 max_retries

/-- Source lines 435-480: the retry loop of `get_next_message_gemini`.  A
single generic `except Exception` handler, but an error whose message
contains "invalid x-api-key" returns `None` at once (source lines 470-472).
Fuel as in `anthropicLoopF`. -/
def geminiLoopF (outcomes : Nat → GenOutcome) (retry_secs max_retries retry_count fuel : Nat) :
    LoopTrace :=
  match outcomes retry_count with
  | .ok t u => ⟨some (t, u), 1, []⟩
  | .fail msg =>
    if containsSub msg "invalid x-api-key".toList then ⟨none, 1, []⟩
    else if max_retries ≤ retry_count + 1 then ⟨none, 1, []⟩
    else
      match fuel with
      | 0 => ⟨none, 1, []⟩
      | fuel' + 1 =>
        let rest := geminiLoopF outcomes retry_secs max_retries (retry_count + 1) fuel'
        ⟨rest.result, rest.attempts + 1, retry_secs :: rest.sleeps⟩

/-- Source lines 428-481: one `get_next_message_gemini` call, starting from
`retry_count = 0` (called with `retry_secs = 15`, `max_retries = 200`). -/
def get_next_message_gemini (outcomes : Nat → GenOutcome) (retry_secs max_retries : Nat) :
    LoopTrace :=
  geminiLoopF outcomes retry_secs max_retries 0 max_retries

/-! ## Anthropic conversation translation inside `get_next_messages`
(source lines 496-527) -/

/-- The data-URL marker stripped from image urls (source line 511). -/
def dataPngMarker : Str := "data:image/png;base64,".toList

/-- Source lines 506-516, first half of the inner loop body for one content
part: the image reshaping (an "image_url" part becomes an "image" part with
a base64 `source` and the `image_url` key deleted). -/
def anthropicReshape (p : MsgPart) : MsgPart :=
  if p.ptype = "image_url".toList then
    { p with
        ptype := "image".toList
        source := some ⟨replaceAllSub (p.image_url.getD []) dataPngMarker [],
                        "image/png".toList, "base64".toList⟩
        image_url := none }
  else p

/-- Source lines 517-520, the cache-hint cap on the (possibly reshaped)
part. -/
def anthropicPart (cnt : Nat) (p : MsgPart) : MsgPart × Nat :=
  let p1 := anthropicReshape p
  if p1.cache_control then
    if 3 ≤ cnt + 1 then ({ p1 with cache_control := false }, cnt + 1)
    else (p1, cnt + 1)
  else (p1, cnt)

/-- The inner loop of source lines 506-520 over the parts of one message,
threading the cache-hint count. -/
def anthropicParts : Nat → List MsgPart → List MsgPart × Nat
  | cnt, [] => ([], cnt)
  | cnt, p :: ps =>
    let (p1, cnt1) := anthropicPart cnt p
    let (ps1, cnt2) := anthropicParts cnt1 ps
    (p1 :: ps1, cnt2)

/-- The outer loop of source lines 503-520 over the messages: string
contents are skipped (`isinstance(content, list)` fails), part lists go
through `anthropicParts`, and the count threads across messages. -/
def anthropicMessages : Nat → List Message → List Message × Nat
  | cnt, [] => ([], cnt)
  | cnt, m :: ms =>
    match m.content with
    | .str _ =>
      let (ms1, cnt1) := anthropicMessages cnt ms
      (m :: ms1, cnt1)
    | .parts ps =>
      let (ps1, cnt1) := anthropicParts cnt ps
      let (ms1, cnt2) := anthropicMessages cnt1 ms
      (⟨m.role, .parts ps1⟩ :: ms1, cnt2)

/-- Source lines 522-527: wrap a string content of the last message into a
one-part list, then set `cache_control` on the last part of the last
message.  Indexing `messages[-1]` or `content[-1]` on an empty list raises
IndexError. -/
def forceLastHint (msgs : List Message) : Except Str (List Message) :=
  match msgs.getLast? with
  | none => .error "IndexError".toList
  | some m =>
    let ps :=
      match m.content with
      | .str s => [textPart s]
      | .parts ps => ps
    match ps.getLast? with
    | none => .error "IndexError".toList
    | some p =>
      .ok (msgs.dropLast ++
        [⟨m.role, .parts (ps.dropLast ++ [{ p with cache_control := true }])⟩])

/-- Source lines 496-527: the whole Anthropic conversation translation of
`get_next_messages` — system extraction (`messages[0]` on an empty list
raises IndexError), the reshaping/hint-capping loop from count 0, and the
final forced hint.  Returns the extracted system content (`[]`, modelled as
an empty part list, when there is no leading system message) together with
the translated message list. -/
def anthropicTranslate (messages : List Message) :
    Except Str (Content × List Message) :=
  match messages with
  | [] => .error "IndexError".toList
  | m :: rest =>
    let sys := if m.role = "system".toList then m.content else .parts []
    let body := if m.role = "system".toList then rest else m :: rest
    let (body1, _) := anthropicMessages 0 body
    (forceLastHint body1).map (fun b => (sys, b))

/-- The parts of a message, for counting cache hints (a string content
carries no parts and can hold no `cache_control` key). -/
def contentParts (m : Message) : List MsgPart :=
  match m.content with
  | .str _ => []
  | .parts ps => ps

/-- All parts of a conversation, in order. -/
def allParts (msgs : List Message) : List MsgPart :=
  msgs.flatMap contentParts

/-! ## The legacy single-call path and the openrouter retry wrapper
(source lines 800-809, 748-787) -/

/-- The recognized configuration: the NO_WIFI test flag and the STREAM_LLM
flag (the latter only decides which single attempt is streamed and does not
change any modelled outcome, so no definition below reads it). -/
structure Env where
  no_wifi : Bool
  stream_llm : Bool
deriving DecidableEq

/-- Source lines 804-809: the fixed canned response text returned under
NO_WIFI. -/
def cannedText : Str := "[[1, 2, 3], [4, 5, 6]]".toList

/-- The all-zero usage returned under NO_WIFI. -/
def zeroUsage : ModelUsage := ⟨0, 0, 0, 0⟩

/-- Source lines 800-809 and below: the legacy single-call path
`get_next_message`.  The NO_WIFI gate (lines 803-809) is translated
exactly: under the flag the canned text with all-zero usage is returned and
no provider is contacted.  The provider dispatch below the gate is
abstracted as a single oracle outcome (`outcome`), since every one of its
branches issues at least one network call; the second component counts the
network calls issued. -/
def get_next_message (env : Env) (outcome : Except Str (Str × ModelUsage)) :
    Except Str (Str × ModelUsage) × Nat :=
  if env.no_wifi then (.ok (cannedText, zeroUsage), 0)
  else (outcome, 1)

/-- Python `str.lower()` (ASCII model). -/
def pyLower (s : Str) : Str := s.map Char.toLower

/-- Source lines 768-775: the retryability test of the openrouter wrapper
(`"429" in str(e) or "rate" in error_str or "502" in str(e) or "upstream" in
error_str or "no choices" in error_str`, with `error_str = str(e).lower()`). -/
def shouldRetryOR (e : Str) : Bool :=
  containsSub e "429".toList || containsSub (pyLower e) "rate".toList ||
  containsSub e "502".toList || containsSub (pyLower e) "upstream".toList ||
  containsSub (pyLower e) "no choices".toList

/-- Source lines 748-787: `get_message_with_retry`, the openrouter wrapper
around the legacy `get_next_message`.  `retry` is the loop index of
`for retry in range(max_retries)`; `fuel` is the number of loop iterations
left, initialised to `max_retries` so the fuel-0 branch is the loop running
to completion (Python then returns `None`, line 787 — unreachable since the
last iteration re-raises).  On a retryable error the wrapper waits
`2 ** retry * 10` seconds and retries unless the iteration is the last one,
in which case (and for non-retryable errors) it re-raises.  Returns the
wrapper's outcome and the number of network calls issued. -/
def get_message_with_retry_go (env : Env) (outcomes : Nat → Except Str (Str × ModelUsage))
    (max_retries : Nat) : Nat → Nat → Except Str (Option (Str × ModelUsage)) × Nat
  | _, 0 => (.ok none, 0)
  | retry, fuel + 1 =>
    let (r, c) := get_next_message env (outcomes retry)
    match r with
    | .ok v => (.ok (some v), c)
    | .error e =>
      if shouldRetryOR e then
        if retry < max_retries - 1 then
          let (r2, c2) := get_message_with_retry_go env outcomes max_retries (retry + 1) fuel
          (r2, c + c2)
        else (.error e, c)
      else (.error e, c)

/-- Source lines 748-787 with the default `max_retries = 5`. -/
def get_message_with_retry (env : Env) (outcomes : Nat → Except Str (Str × ModelUsage)) :
    Except Str (Option (Str × ModelUsage)) × Nat :=
  get_message_with_retry_go env outcomes 5 0 5

/-! ## The fan-out orchestrator `get_next_messages` (source lines 484-797) -/

/-- The adapter-level outcome of fan-out attempt number `i`: the value the
adapter call returns (`None` when it gave up, a (text, usage) pair
otherwise).  The retry behaviour inside one adapter call is modelled
separately by the loop embeddings above. -/
abbrev AttemptOutcome := Option (Str × ModelUsage)

instance {α β : Type} [DecidableEq α] [DecidableEq β] : DecidableEq (Except α β) := fun x y =>
  match x, y with
  | .error a, .error b => if h : a = b then .isTrue (by rw [h]) else .isFalse (by simp [h])
  | .ok a, .ok b => if h : a = b then .isTrue (by rw [h]) else .isFalse (by simp [h])
  | .error _, .ok _ => .isFalse (by simp)
  | .ok _, .error _ => .isFalse (by simp)

/-- What one `get_next_messages` call did.  `ret` is the Python return
value: an exception (`.error`), Python `None` (`.ok none` — reachable, see
the DeepSeek branch), or a list (`.ok (some ...)`).  `calls` counts the
adapter invocations issued (each of which performs at least one network
call).  `callerAfter` is the caller's `messages` list as observable after
the call: the translation loops edit the caller's message and part dicts in
place (slicing copies only the outer list), while `text_only_messages`
builds fresh dicts, so its output is never aliased to the caller's. -/
structure Orch where
  ret : Except Str (Option (List (Str × ModelUsage)))
  calls : Nat
  callerAfter : List Message
deriving DecidableEq

/-- The results of attempts `0 .. n-1` with the absent ones dropped
(`[m for m in n_messages if m]`); the primary attempt keeps slot 0 and
`asyncio.gather` preserves the order of the rest. -/
def gatherResults (orc : Nat → AttemptOutcome) (n : Nat) : List (Str × ModelUsage) :=
  ((List.range n).map orc).filterMap id

/-- Source lines 493-553: the Anthropic branch.  Haiku first projects the
conversation to text-only (building fresh dicts, so the caller's list is
untouched); then the translation of `anthropicTranslate` runs — in place on
the caller's dicts for Sonnet.  `n` adapter calls are issued (1 primary +
`n-1` gathered) and the absent results dropped. -/
def anthropicBranch (orc : Nat → AttemptOutcome) (messages : List Message)
    (haiku : Bool) (n : Nat) : Orch :=
  let msgs0 := if haiku then text_only_messages messages else messages
  match msgs0 with
  | [] => ⟨.error "IndexError".toList, 0, messages⟩
  | m :: rest =>
    let isSys := m.role = "system".toList
    let body := if isSys then rest else m :: rest
    let (body1, _) := anthropicMessages 0 body
    let reattach := fun (l : List Message) => if isSys then m :: l else l
    match forceLastHint body1 with
    | .error e =>
      ⟨.error e, 0, if haiku then messages else reattach body1⟩
    | .ok body2 =>
      ⟨.ok (some (gatherResults orc n)), n, if haiku then messages else reattach body2⟩

/-- Source lines 554-593: the OpenAI branch.  A leading system role is
renamed to "developer" in place on the caller's first message dict (line
568); the o1/o3 models then project to text-only (fresh dicts).  `n`
adapter calls are issued and the absent results dropped. -/
def openaiBranch (orc : Nat → AttemptOutcome) (messages : List Message)
    (textOnlyModel : Bool) (n : Nat) : Orch :=
  match messages with
  | [] => ⟨.error "IndexError".toList, 0, messages⟩
  | m :: rest =>
    let renamed :=
      if m.role = "system".toList then { m with role := "developer".toList } :: rest
      else m :: rest
    let _sent := if textOnlyModel then text_only_messages renamed else renamed
    ⟨.ok (some (gatherResults orc n)), n, renamed⟩

/-- Source lines 594-648: the DeepSeek branch.  The conversation is
projected to text-only (fresh dicts; the caller's list is untouched) and
`n` adapter calls are issued — but the branch never returns its
`n_messages`: the dangling comment on line 648 is followed by no `return`,
so control falls out of the `if` chain and the function returns Python
`None`. -/
def deepseekBranch (orc : Nat → AttemptOutcome) (messages : List Message) (n : Nat) : Orch :=
  let _sent := text_only_messages messages
  let _discarded := gatherResults orc n
  ⟨.ok none, n, messages⟩

/-- Source lines 649-680: the XAI branch.  The message conversion happens
per-call inside the adapter on a fresh chat object; the caller's list is
untouched.  Under streaming `n = 1` and a single call is issued, otherwise
`n` calls are gathered — `n` calls either way. -/
def xaiBranch (orc : Nat → AttemptOutcome) (messages : List Message) (n : Nat) : Orch :=
  ⟨.ok (some (gatherResults orc n)), n, messages⟩

/-- Source lines 681-736: the Gemini branch.  System extraction as in the
Anthropic branch, then `system_instruction = system_messages[0]["text"]`:
with no leading system message `system_messages` is `[]` and indexing it
raises IndexError; with a string system content, indexing the string yields
a character and subscripting it raises TypeError; with an empty part list,
IndexError.  The content translation builds fresh Gemini dicts (no caller
mutation; image decoding is abstracted and the parts are assumed
well-formed).  One shared cache is created and `n` adapter calls are
issued. -/
def geminiBranch (orc : Nat → AttemptOutcome) (messages : List Message) (n : Nat) : Orch :=
  match messages with
  | [] => ⟨.error "IndexError".toList, 0, messages⟩
  | m :: _rest =>
    let sysContent : Option Content :=
      if m.role = "system".toList then some m.content else none
    match sysContent with
    | none => ⟨.error "IndexError".toList, 0, messages⟩
    | some (.str _) => ⟨.error "TypeError".toList, 0, messages⟩
    | some (.parts []) => ⟨.error "IndexError".toList, 0, messages⟩
    | some (.parts (_ :: _)) =>
      ⟨.ok (some (gatherResults orc n)), n, messages⟩

/-- Source lines 737-795: the openrouter branch.  Some models project to
text-only first (fresh dicts).  Each of the `n` attempts runs the wrapper
`get_message_with_retry` (attempt `i` sees the legacy outcomes
`legacyOrc i`); `asyncio.gather` re-raises if any attempt raises (modelled
as the first raising attempt in list order; the other attempts still run,
so all calls count). -/
def openrouterGather (env : Env) (legacyOrc : Nat → Nat → Except Str (Str × ModelUsage)) :
    Nat → Nat → Except Str (List (Option (Str × ModelUsage))) × Nat
  | _, 0 => (.ok [], 0)
  | i, k + 1 =>
    let (r, c) := get_message_with_retry env (legacyOrc i)
    let (rs, cs) := openrouterGather env legacyOrc (i + 1) k
    match r, rs with
    | .error e, _ => (.error e, c + cs)
    | .ok _, .error e => (.error e, c + cs)
    | .ok v, .ok vs => (.ok (v :: vs), c + cs)

/-- Source lines 737-795: the openrouter branch proper. -/
def openrouterBranch (env : Env) (legacyOrc : Nat → Nat → Except Str (Str × ModelUsage))
    (messages : List Message) (textOnlyModel : Bool) (n : Nat) : Orch :=
  let _sent := if textOnlyModel then text_only_messages messages else messages
  match openrouterGather env legacyOrc 0 n with
  | (.error e, c) => ⟨.error e, c, messages⟩
  | (.ok vs, c) => ⟨.ok (some (vs.filterMap id)), c, messages⟩

/-- Source lines 484-797: `get_next_messages`.  `n_times <= 0` returns `[]`
before any dispatch (line 487-488); then the model chooses the provider
branch; a model outside every family raises ValueError (line 797).
`temperature` is passed through to the providers untouched and does not
influence the modelled control flow. -/
def get_next_messages (env : Env) (orc : Nat → AttemptOutcome)
    (legacyOrc : Nat → Nat → Except Str (Str × ModelUsage))
    (messages : List Message) (model : Model) (_temperature : Int) (n_times : Nat) : Orch :=
  if n_times = 0 then ⟨.ok (some []), 0, messages⟩
  else
    match model with
    | .claude_3_5_sonnet => anthropicBranch orc messages false n_times
    | .claude_3_5_haiku => anthropicBranch orc messages true n_times
    | .gpt_4o => openaiBranch orc messages false n_times
    | .gpt_4o_mini => openaiBranch orc messages false n_times
    | .gpt_5 => openaiBranch orc messages false n_times
    | .o1_mini => openaiBranch orc messages true n_times
    | .o1_preview => openaiBranch orc messages true n_times
    | .o3_mini => openaiBranch orc messages true n_times
    | .deep_seek_r1 => deepseekBranch orc messages n_times
    | .baseten_deepseek_r1 => deepseekBranch orc messages n_times
    | .grok_3 => xaiBranch orc messages n_times
    | .grok_4 => xaiBranch orc messages n_times
    | .gemini_1_5_pro => geminiBranch orc messages n_times
    | .openrouter_claude_3_5_sonnet => openrouterBranch env legacyOrc messages false n_times
    | .openrouter_model => openrouterBranch env legacyOrc messages true n_times
    | .openrouter_o1 => openrouterBranch env legacyOrc messages true n_times
    | .openrouter_o1_mini => openrouterBranch env legacyOrc messages true n_times
    | _ => ⟨.error "ValueError".toList, 0, messages⟩

/-! ## Claim-side definitions and concrete fixtures -/

/-- The filter of Claim C10 exactly as the claim states it: keep a message
whose content is a non-empty string, or whose part list contains a part of
type "text"; content becomes the newline-join of its text parts (for a
string content, the string itself). -/
def text_only_claimed (messages : List Message) : List Message :=
  messages.filterMap (fun m =>
    match m.content with
    | .str s => if s = [] then none else some ⟨m.role, .str s⟩
    | .parts ps =>
      let ts := ps.filterMap (fun p => if p.ptype = "text".toList then some p.text else none)
      if ts = [] then none else some ⟨m.role, .str (joinNl ts)⟩)

/-- The filter of Claim C10 as amended: a message whose content is a string
is kept even when the string is empty (the source appends the string to
`content_strs` unconditionally and `[""]` is a non-empty, hence truthy,
list); otherwise as in the claim. -/
def text_only_amended (messages : List Message) : List Message :=
  messages.filterMap (fun m =>
    match m.content with
    | .str s => some ⟨m.role, .str s⟩
    | .parts ps =>
      let ts := ps.filterMap (fun p => if p.ptype = "text".toList then some p.text else none)
      if ts = [] then none else some ⟨m.role, .str (joinNl ts)⟩)

/-- A text part requesting a cache hint. -/
def hintedTextPart : MsgPart := ⟨"text".toList, "t".toList, none, none, true⟩

/-- The same text part with the hint stripped. -/
def strippedTextPart : MsgPart := ⟨"text".toList, "t".toList, none, none, false⟩

/-- A one-message conversation whose five content parts each request a
cache hint. -/
def m5hint : Message :=
  ⟨"user".toList,
   .parts [hintedTextPart, hintedTextPart, hintedTextPart, hintedTextPart, hintedTextPart]⟩

/-- The translated form of `m5hint`: hints 1 and 2 survive, hints 3-5 are
stripped, and the final part gets the forced hint back. -/
def m5hintOut : Message :=
  ⟨"user".toList,
   .parts [hintedTextPart, hintedTextPart, strippedTextPart, strippedTextPart, hintedTextPart]⟩

/-- A plain user message. -/
def userMsgHi : Message := ⟨"user".toList, .str "hi".toList⟩

/-- A leading system message. -/
def sysMsgS : Message := ⟨"system".toList, .str "s".toList⟩

/-- Environment with the NO_WIFI flag set. -/
def envOn : Env := ⟨true, false⟩

/-- Environment with the NO_WIFI flag clear. -/
def envOff : Env := ⟨false, false⟩

/-- An attempt oracle on which every adapter call succeeds with text "X". -/
def orcX : Nat → AttemptOutcome := fun _ => some ("X".toList, zeroUsage)

/-- A legacy oracle on which every provider call succeeds with text "Y". -/
def lorcY : Nat → Nat → Except Str (Str × ModelUsage) := fun _ _ => .ok ("Y".toList, zeroUsage)

/-- An authentication-failure message as the Anthropic SDK renders it. -/
def authFailMsg : Str := "Error code: 401 - invalid x-api-key".toList

/-! ## Lemmas about the retry loops -/

/-- Under an always-rate-limited provider the Anthropic loop, entered at
attempt `c < max_retries` with enough fuel, makes exactly the remaining
`max_retries - c` attempts, sleeps between consecutive attempts, and gives
up with an absent result. -/
theorem anthropicLoopF_allRL (outcomes : Nat → AnthOutcome) (secs maxR : Nat)
    (h : ∀ i, outcomes i = .rateLimited) :
    ∀ fuel c, c < maxR → maxR - c - 1 ≤ fuel →
      anthropicLoopF outcomes secs maxR c fuel =
        ⟨none, maxR - c, List.replicate (maxR - c - 1) secs⟩ := by
  intro fuel
  induction fuel with
  | zero =>
    intro c hc hf
    have hm : maxR ≤ c + 1 := by omega
    have h1 : maxR - c = 1 := by omega
    have h2 : maxR - c - 1 = 0 := by omega
    simp [anthropicLoopF, h c, hm, h1, h2]
  | succ fuel ih =>
    intro c hc hf
    by_cases hm : maxR ≤ c + 1
    · have h1 : maxR - c = 1 := by omega
      have h2 : maxR - c - 1 = 0 := by omega
      simp [anthropicLoopF, h c, hm, h1, h2]
    · have hrec := ih (c + 1) (by omega) (by omega)
      have h1 : maxR - c = (maxR - (c + 1)) + 1 := by omega
      have h2 : maxR - c - 1 = (maxR - (c + 1) - 1) + 1 := by omega
      simp only [anthropicLoopF, h c, if_neg hm, hrec, h1]
      have h3 : maxR - (c + 1) + 1 - 1 = (maxR - (c + 1) - 1) + 1 := by omega
      rw [h3, List.replicate_succ]

/-- Under an always-failing provider the OpenAI loop, entered at attempt
`c < max_retries` with enough fuel, makes exactly the remaining
`max_retries - c` attempts, sleeps between consecutive attempts, and gives
up with an absent result. -/
theorem openaiLoopF_allFail (outcomes : Nat → GenOutcome) (secs maxR : Nat)
    (msgs : Nat → Str) (h : ∀ i, outcomes i = .fail (msgs i)) :
    ∀ fuel c, c < maxR → maxR - c - 1 ≤ fuel →
      openaiLoopF outcomes secs maxR c fuel =
        ⟨none, maxR - c, List.replicate (maxR - c - 1) secs⟩ := by
  intro fuel
  induction fuel with
  | zero =>
    intro c hc hf
    have hm : maxR ≤ c + 1 := by omega
    have h1 : maxR - c = 1 := by omega
    have h2 : maxR - c - 1 = 0 := by omega
    simp [openaiLoopF, h c, hm, h1, h2]
  | succ fuel ih =>
    intro c hc hf
    by_cases hm : maxR ≤ c + 1
    · have h1 : maxR - c = 1 := by omega
      have h2 : maxR - c - 1 = 0 := by omega
      simp [openaiLoopF, h c, hm, h1, h2]
    · have hrec := ih (c + 1) (by omega) (by omega)
      have h1 : maxR - c = (maxR - (c + 1)) + 1 := by omega
      have h2 : maxR - c - 1 = (maxR - (c + 1) - 1) + 1 := by omega
      simp only [openaiLoopF, h c, if_neg hm, hrec, h1]
      have h3 : maxR - (c + 1) + 1 - 1 = (maxR - (c + 1) - 1) + 1 := by omega
      rw [h3, List.replicate_succ]

/-! ## Claim C1 -/

/-- Claim C1 (code bug): at the failing input — the DeepSeek model with
`n = 1` — `get_next_messages` does not return a list of length at most `n`:
the branch computes its attempt results but falls through without a
`return`, so the function returns Python `None` (here `.ok none`), after
having issued its provider call. -/
theorem c1_deepseek_fallthrough_returns_none :
    (get_next_messages envOff orcX lorcY [userMsgHi] Model.deep_seek_r1 0 1).ret = .ok none ∧
    (get_next_messages envOff orcX lorcY [userMsgHi] Model.deep_seek_r1 0 1).calls = 1 :=
  ⟨rfl, rfl⟩

/-! ## Claim C2 -/

/-- Claim C2: under a provider that fails every attempt with a rate-limit
error, one `get_next_message_anthropic` call performs exactly the configured
maximum number of attempts (`max_retries`, e.g. 200), waiting the fixed
delay `retry_secs` between consecutive attempts (`max_retries - 1` waits),
and then returns an absent result rather than raising. -/
theorem c2_rate_limit_exact_attempts (outcomes : Nat → AnthOutcome)
    (retry_secs max_retries : Nat) (hmax : 1 ≤ max_retries)
    (hrl : ∀ i, outcomes i = .rateLimited) :
    get_next_message_anthropic outcomes retry_secs max_retries =
      ⟨none, max_retries, List.replicate (max_retries - 1) retry_secs⟩ := by
  have := anthropicLoopF_allRL outcomes retry_secs max_retries hrl max_retries 0
    (by omega) (by omega)
  simpa [get_next_message_anthropic] using this

/-- Witness for Claim C2 at the configured values of the source
(`retry_secs = 15`, `max_retries = 200`). -/
theorem c2_rate_limit_witness :
    get_next_message_anthropic (fun _ => .rateLimited) 15 200 =
      ⟨none, 200, List.replicate 199 15⟩ :=
  c2_rate_limit_exact_attempts (fun _ => .rateLimited) 15 200 (by decide) (fun _ => rfl)

/-! ## Claim C3 -/

/-- Claim C3 counterexample: not every adapter short-circuits an
authentication failure — the OpenAI adapter loop has no authentication
case, so under a provider that always fails with "invalid x-api-key" it
performs its full `max_retries = 3` attempts, not exactly one. -/
theorem c3_openai_auth_retries_counterexample :
    (get_next_message_openai (fun _ => .fail authFailMsg) 15 3).attempts ≠ 1 := by
  decide

/-- Claim C3 as amended: an authentication failure ("invalid x-api-key" in
the error text) makes the Anthropic and Gemini adapters return an absent
result after exactly one attempt with no backoff wait; the OpenAI-family
adapter instead treats it as a generic error and performs its configured
maximum number of attempts before returning an absent result. -/
theorem c3_auth_short_circuit_amended :
    (∀ (outcomes : Nat → AnthOutcome) (retry_secs max_retries : Nat) (msg : Str),
       outcomes 0 = .fail msg → containsSub msg "invalid x-api-key".toList = true →
       get_next_message_anthropic outcomes retry_secs max_retries = ⟨none, 1, []⟩) ∧
    (∀ (outcomes : Nat → GenOutcome) (retry_secs max_retries : Nat) (msg : Str),
       outcomes 0 = .fail msg → containsSub msg "invalid x-api-key".toList = true →
       get_next_message_gemini outcomes retry_secs max_retries = ⟨none, 1, []⟩) ∧
    (∀ (outcomes : Nat → GenOutcome) (retry_secs max_retries : Nat) (msgs : Nat → Str),
       1 ≤ max_retries → (∀ i, outcomes i = .fail (msgs i)) →
       (get_next_message_openai outcomes retry_secs max_retries).attempts = max_retries) := by
  refine ⟨?_, ?_, ?_⟩
  · intro outcomes retry_secs max_retries msg h0 hkey
    cases max_retries <;>
      (simp only [get_next_message_anthropic, anthropicLoopF, h0]; rw [if_pos hkey])
  · intro outcomes retry_secs max_retries msg h0 hkey
    cases max_retries <;>
      (simp only [get_next_message_gemini, geminiLoopF, h0]; rw [if_pos hkey])
  · intro outcomes retry_secs max_retries msgs hmax hfail
    have := openaiLoopF_allFail outcomes retry_secs max_retries msgs hfail max_retries 0
      (by omega) (by omega)
    simp [get_next_message_openai, this]

/-- Witness for Claim C3 as amended, at the auth-failure message and the
source's configured retry values (Anthropic and Gemini: 15/200; OpenAI:
15/3). -/
theorem c3_auth_short_circuit_witness :
    get_next_message_anthropic (fun _ => .fail authFailMsg) 15 200 = ⟨none, 1, []⟩ ∧
    get_next_message_gemini (fun _ => .fail authFailMsg) 15 200 = ⟨none, 1, []⟩ ∧
    (get_next_message_openai (fun _ => .fail authFailMsg) 15 3).attempts = 3 :=
  ⟨c3_auth_short_circuit_amended.1 (fun _ => .fail authFailMsg) 15 200 authFailMsg rfl (by decide),
   c3_auth_short_circuit_amended.2.1 (fun _ => .fail authFailMsg) 15 200 authFailMsg rfl (by decide),
   c3_auth_short_circuit_amended.2.2 (fun _ => .fail authFailMsg) 15 3 (fun _ => authFailMsg)
     (by decide) (fun _ => rfl)⟩

/-! ## Claim C4 -/

/-- Claim C4 counterexample: on a text with two fenced regions neither of
which contains "def transform(", `parse_python_backticks` does not return
the remainder after the first fence marker — the single-fence assertion
that follows the backward scan fails and the call raises AssertionError. -/
theorem c4_no_marker_assertion_counterexample :
    parse_python_backticks "```python\na = 1\n```\ntext\n```python\nb = 2\n```".toList =
      .error "AssertionError".toList := by rfl

/-- Claim C4 as amended: for a text with two or more fenced regions,
`parse_python_backticks` scans the split chunks from the last backward; if
a chunk contains the marker "def transform(", the text is reduced to the
fence marker followed by that chunk and the returned code is the extracted
body of that region (the capture of the closing-fence regex, tab-cleaned);
if no chunk contains the marker, the function raises an AssertionError
rather than returning the remainder after the first fence marker. -/
theorem c4_backward_scan_amended :
    (∀ s : Str, 2 ≤ countSub s fenceStr →
       (∀ chunk ∈ splitOnSub s fenceStr, containsSub chunk transformMarker = false) →
       parse_python_backticks s = .error "AssertionError".toList) ∧
    (∀ (s c body : Str), 2 ≤ countSub s fenceStr →
       ((splitOnSub s fenceStr).reverse).find?
           (fun chunk => containsSub chunk transformMarker) = some c →
       countSub (fenceStr ++ c) fenceStr = 1 →
       reSearchFence (fenceStr ++ c) closeFenceNl = some body →
       parse_python_backticks s = .ok (clean_code body)) := by
  constructor
  · intro s h2 hall
    have hfind : ((splitOnSub s fenceStr).reverse).find?
        (fun chunk => containsSub chunk transformMarker) = none :=
      List.find?_eq_none.mpr (fun x hx => by
        simp [hall x (List.mem_reverse.mp hx)])
    unfold parse_python_backticks
    rw [if_neg (by omega : ¬ countSub s fenceStr = 0)]
    simp only [if_pos (show 1 < countSub s fenceStr by omega), hfind]
    rw [if_neg (by omega : ¬ countSub s fenceStr = 1)]
  · intro s c body h2 hfind hcount hsearch
    unfold parse_python_backticks
    rw [if_neg (by omega : ¬ countSub s fenceStr = 0)]
    simp only [if_pos (show 1 < countSub s fenceStr by omega), hfind]
    rw [if_pos hcount]
    unfold extractStage
    rw [hsearch]

/-- Witness for Claim C4 as amended: a text whose second region contains
the marker (picked by the backward scan, its body returned), and a text
with regions but no marker (AssertionError). -/
theorem c4_backward_scan_witness :
    parse_python_backticks "```python\nx = 0\n```\n```python\ny = 1\n```".toList =
      .error "AssertionError".toList ∧
    parse_python_backticks
        "```python\nx = 0\n```\n```python\ndef transform(g):\n    return g\n```".toList =
      .ok "def transform(g):\n    return g".toList :=
  ⟨c4_backward_scan_amended.1 _ (by decide) (by decide),
   c4_backward_scan_amended.2 _ "\ndef transform(g):\n    return g\n```".toList
     "def transform(g):\n    return g".toList (by decide) (by decide) (by decide) (by decide)⟩

/-! ## Lemmas about the Anthropic cache-hint cap -/

/-- The reshaping step does not touch the `cache_control` key. -/
theorem anthropicReshape_cc (p : MsgPart) :
    (anthropicReshape p).cache_control = p.cache_control := by
  unfold anthropicReshape
  split <;> rfl

/-- The per-part step keeps the `cache_control` key exactly when the bumped
count stays below 3. -/
theorem anthropicPart_cc (cnt : Nat) (p : MsgPart) :
    ((anthropicPart cnt p).1).cache_control = (p.cache_control && decide (cnt + 1 < 3)) := by
  unfold anthropicPart
  dsimp only
  rw [anthropicReshape_cc]
  by_cases hc : p.cache_control
  · rw [if_pos hc]
    by_cases h3 : 3 ≤ cnt + 1
    · rw [if_pos h3]
      have h4 : ¬ (cnt + 1 < 3) := by omega
      simp [hc, h4]
    · rw [if_neg h3]
      have h4 : cnt + 1 < 3 := by omega
      simp [anthropicReshape_cc, hc, h4]
  · rw [if_neg hc]
    have hc2 : p.cache_control = false := by simpa using hc
    simp [anthropicReshape_cc, hc2]

/-- The per-part step bumps the count exactly on parts carrying a hint. -/
theorem anthropicPart_cnt (cnt : Nat) (p : MsgPart) :
    (anthropicPart cnt p).2 = if p.cache_control then cnt + 1 else cnt := by
  unfold anthropicPart
  dsimp only
  rw [anthropicReshape_cc]
  by_cases hc : p.cache_control
  · rw [if_pos hc, if_pos hc]
    by_cases h3 : 3 ≤ cnt + 1
    · rw [if_pos h3]
    · rw [if_neg h3]
  · rw [if_neg hc, if_neg hc]

/-- Invariant of the part loop: the surviving hints plus the remaining
allowance after the loop fit in the allowance before it. -/
theorem anthropicParts_hint_bound (ps : List MsgPart) : ∀ cnt : Nat,
    ((anthropicParts cnt ps).1).countP (fun p => p.cache_control) +
      (2 - (anthropicParts cnt ps).2) ≤ 2 - cnt := by
  induction ps with
  | nil => intro cnt; simp [anthropicParts]
  | cons p ps ih =>
    intro cnt
    rcases hp : anthropicPart cnt p with ⟨p1, cnt1⟩
    rcases hr : anthropicParts cnt1 ps with ⟨ps1, cnt2⟩
    have hcc : p1.cache_control = (p.cache_control && decide (cnt + 1 < 3)) := by
      have h := anthropicPart_cc cnt p; rw [hp] at h; exact h
    have hcnt : cnt1 = if p.cache_control then cnt + 1 else cnt := by
      have h := anthropicPart_cnt cnt p; rw [hp] at h; exact h
    have ihh := ih cnt1
    rw [hr] at ihh
    dsimp only at ihh
    have hstep : anthropicParts cnt (p :: ps) = (p1 :: ps1, cnt2) := by
      simp only [anthropicParts, hp, hr]
    rw [hstep]
    simp only [List.countP_cons]
    by_cases hc : p.cache_control
    · by_cases h3 : cnt + 1 < 3
      · have hp1 : p1.cache_control = true := by rw [hcc, hc]; simpa using h3
        have hcnt1 : cnt1 = cnt + 1 := by rw [hcnt, if_pos hc]
        rw [hp1]
        simp only [eq_self_iff_true, if_true]
        omega
      · have hp1 : p1.cache_control = false := by rw [hcc, hc]; simpa using h3
        have hcnt1 : cnt1 = cnt + 1 := by rw [hcnt, if_pos hc]
        rw [hp1]
        simp only [Bool.false_eq_true, if_false]
        omega
    · have hc2 : p.cache_control = false := by simpa using hc
      have hp1 : p1.cache_control = false := by rw [hcc, hc2]; simp
      have hcnt1 : cnt1 = cnt := by rw [hcnt, if_neg hc]
      rw [hp1]
      simp only [Bool.false_eq_true, if_false]
      omega

/-- Invariant of the message loop: at most the remaining allowance of
cache hints survives across the whole conversation. -/
theorem anthropicMessages_hint_bound (ms : List Message) : ∀ cnt : Nat,
    (allParts ((anthropicMessages cnt ms).1)).countP (fun p => p.cache_control) +
      (2 - (anthropicMessages cnt ms).2) ≤ 2 - cnt := by
  induction ms with
  | nil => intro cnt; simp [anthropicMessages, allParts]
  | cons m ms ih =>
    intro cnt
    cases hm : m.content with
    | str s =>
      rcases hr : anthropicMessages cnt ms with ⟨ms1, cnt1⟩
      have ihh := ih cnt
      rw [hr] at ihh
      dsimp only at ihh
      have hstep : anthropicMessages cnt (m :: ms) = (m :: ms1, cnt1) := by
        simp only [anthropicMessages, hm, hr]
      rw [hstep]
      simp only [allParts, List.flatMap_cons, List.countP_append] at ihh ⊢
      have hz : (contentParts m).countP (fun p => p.cache_control) = 0 := by
        simp [contentParts, hm]
      omega
    | parts ps =>
      rcases hq : anthropicParts cnt ps with ⟨ps1, cnt1⟩
      rcases hr : anthropicMessages cnt1 ms with ⟨ms1, cnt2⟩
      have hps := anthropicParts_hint_bound ps cnt
      rw [hq] at hps
      dsimp only at hps
      have ihh := ih cnt1
      rw [hr] at ihh
      dsimp only at ihh
      have hstep : anthropicMessages cnt (m :: ms) = (⟨m.role, .parts ps1⟩ :: ms1, cnt2) := by
        simp only [anthropicMessages, hm, hq, hr]
      rw [hstep]
      simp only [allParts, List.flatMap_cons, List.countP_append] at ihh ⊢
      have hz : (contentParts ⟨m.role, .parts ps1⟩).countP (fun p => p.cache_control) =
          ps1.countP (fun p => p.cache_control) := by simp [contentParts]
      omega

/-- A list with a known last element is its `dropLast` with that element
appended. -/
theorem lem_eq_dropLast_concat {α : Type} {l : List α} {a : α}
    (h : l.getLast? = some a) : l = l.dropLast ++ [a] := by
  induction l using List.reverseRecOn with
  | nil => simp at h
  | append_singleton l b _ =>
    rw [List.getLast?_concat] at h
    cases h
    rw [List.dropLast_concat]

/-- `allParts` distributes over a final singleton. -/
theorem lem_allParts_concat (l : List Message) (m : Message) :
    allParts (l ++ [m]) = allParts l ++ contentParts m := by
  simp [allParts]

/-! ## Claim C5 -/

/-- Claim C5 counterexample: translating a conversation of five
hint-requesting parts leaves three parts carrying a cache hint in the
translated conversation (the first two requested hints plus the forced
hint on the final part), not at most two. -/
theorem c5_three_hints_counterexample :
    anthropicTranslate [m5hint] = .ok (Content.parts [], [m5hintOut]) ∧
    ¬ ((allParts [m5hintOut]).countP (fun p => p.cache_control) ≤ 2) :=
  ⟨rfl, by decide⟩

/-- Claim C5 as amended: after the Anthropic adapter translation, at most 2
cache hints survive among the content parts other than the final one (the
first two requested hints are kept, later ones stripped), and the final
content part of the final message always carries a cache hint — so the
translated conversation can carry up to 3 hints in total, not 2. -/
theorem c5_cache_hint_amended (messages : List Message) (sys : Content) (out : List Message)
    (h : anthropicTranslate messages = .ok (sys, out)) :
    ((allParts out).dropLast).countP (fun p => p.cache_control) ≤ 2 ∧
    ∃ p, (allParts out).getLast? = some p ∧ p.cache_control = true := by
  cases messages with
  | nil => simp [anthropicTranslate] at h
  | cons m rest =>
    rcases hb : anthropicMessages 0 (if m.role = "system".toList then rest else m :: rest)
      with ⟨body1, cntEnd⟩
    have hbound := anthropicMessages_hint_bound
      (if m.role = "system".toList then rest else m :: rest) 0
    rw [hb] at hbound
    dsimp only at hbound
    simp only [anthropicTranslate, hb] at h
    cases hf : forceLastHint body1 with
    | error e => rw [hf] at h; simp [Except.map] at h
    | ok b =>
      rw [hf] at h
      simp only [Except.map] at h
      injection h with h2
      rw [Prod.mk.injEq] at h2
      obtain ⟨hsys, hout⟩ := h2
      subst hout
      unfold forceLastHint at hf
      cases hl : body1.getLast? with
      | none => rw [hl] at hf; simp at hf
      | some mLast =>
        rw [hl] at hf
        dsimp only at hf
        have hsplit : body1 = body1.dropLast ++ [mLast] := lem_eq_dropLast_concat hl
        cases hmc : mLast.content with
        | str s =>
          rw [hmc] at hf
          dsimp only at hf
          simp only [List.getLast?_singleton] at hf
          injection hf with hf2
          subst hf2
          constructor
          · rw [lem_allParts_concat]
            simp only [contentParts, List.dropLast_single, List.nil_append]
            rw [List.dropLast_concat]
            have hle : (allParts body1.dropLast).countP (fun p => p.cache_control) ≤
                (allParts body1).countP (fun p => p.cache_control) := by
              conv_rhs => rw [hsplit]
              rw [lem_allParts_concat]
              simp [List.countP_append]
            omega
          · refine ⟨{ textPart s with cache_control := true }, ?_, rfl⟩
            rw [lem_allParts_concat]
            simp only [contentParts, List.dropLast_single, List.nil_append]
            rw [List.getLast?_concat]
        | parts qs =>
          rw [hmc] at hf
          dsimp only at hf
          cases hql : qs.getLast? with
          | none => rw [hql] at hf; simp at hf
          | some q =>
            rw [hql] at hf
            dsimp only at hf
            injection hf with hf2
            subst hf2
            have hqsplit : qs = qs.dropLast ++ [q] := lem_eq_dropLast_concat hql
            constructor
            · rw [lem_allParts_concat]
              simp only [contentParts]
              rw [← List.append_assoc, List.dropLast_concat]
              rw [List.countP_append]
              have hle : (allParts body1.dropLast).countP (fun p => p.cache_control) +
                  (qs.dropLast).countP (fun p => p.cache_control) ≤
                  (allParts body1).countP (fun p => p.cache_control) := by
                conv_rhs => rw [hsplit]
                rw [lem_allParts_concat]
                simp only [contentParts, hmc]
                rw [List.countP_append]
                have := (List.dropLast_sublist qs).countP_le (fun p => p.cache_control)
                omega
              omega
            · refine ⟨{ q with cache_control := true }, ?_, rfl⟩
              rw [lem_allParts_concat]
              simp only [contentParts]
              rw [← List.append_assoc, List.getLast?_concat]

/-- Witness for Claim C5 as amended, at the five-hint conversation. -/
theorem c5_cache_hint_witness :
    ((allParts [m5hintOut]).dropLast).countP (fun p => p.cache_control) ≤ 2 ∧
    ∃ p, (allParts [m5hintOut]).getLast? = some p ∧ p.cache_control = true :=
  c5_cache_hint_amended [m5hint] (Content.parts []) [m5hintOut] rfl

/-! ## Claim C6 -/

/-- Claim C6 counterexample: after an OpenAI-family `get_next_messages`
call on a conversation with a leading system message, the caller's
messages list is not unchanged — the first message's role was renamed in
place. -/
theorem c6_mutation_counterexample :
    (get_next_messages envOff orcX lorcY [sysMsgS, userMsgHi] Model.gpt_4o 0 1).callerAfter ≠
      [sysMsgS, userMsgHi] := by decide

/-- Claim C6 as amended: `get_next_messages` mutates the caller's
conversation in place — on the OpenAI family a leading system role is
renamed to "developer" on the caller's first message dict, and on the
Anthropic (Sonnet) path the caller's messages carry the image reshaping,
cache-hint capping and forced final hint after the call returns (only the
text-only projections used by Haiku and the o1/o3/DeepSeek models operate
on fresh copies). -/
theorem c6_in_place_mutation_amended :
    (∀ (env : Env) (orc : Nat → AttemptOutcome)
       (lorc : Nat → Nat → Except Str (Str × ModelUsage))
       (m : Message) (rest : List Message) (t : Int) (n : Nat),
       n ≠ 0 → m.role = "system".toList →
       (get_next_messages env orc lorc (m :: rest) Model.gpt_4o t n).callerAfter =
         { m with role := "developer".toList } :: rest) ∧
    (∀ (env : Env) (orc : Nat → AttemptOutcome)
       (lorc : Nat → Nat → Except Str (Str × ModelUsage))
       (m : Message) (rest : List Message) (t : Int) (n : Nat) (body2 : List Message),
       n ≠ 0 → m.role = "system".toList →
       forceLastHint (anthropicMessages 0 rest).1 = .ok body2 →
       (get_next_messages env orc lorc (m :: rest) Model.claude_3_5_sonnet t n).callerAfter =
         m :: body2) := by
  constructor
  · intro env orc lorc m rest t n hn hrole
    simp only [get_next_messages, if_neg hn, openaiBranch]
    rw [if_pos hrole]
  · intro env orc lorc m rest t n body2 hn hrole hforce
    rcases hbb : anthropicMessages 0 rest with ⟨body1, cntx⟩
    rw [hbb] at hforce
    dsimp only at hforce
    simp only [get_next_messages, if_neg hn, anthropicBranch, Bool.false_eq_true, if_false]
    rw [if_pos hrole, hbb]
    dsimp only
    rw [hforce]
    dsimp only
    rw [if_pos hrole]

/-- Witness for Claim C6 as amended, at a two-message conversation with a
leading system message. -/
theorem c6_in_place_mutation_witness :
    (get_next_messages envOff orcX lorcY [sysMsgS, userMsgHi] Model.gpt_4o 0 1).callerAfter =
      ⟨"developer".toList, .str "s".toList⟩ :: [userMsgHi] ∧
    (get_next_messages envOff orcX lorcY [sysMsgS, userMsgHi]
        Model.claude_3_5_sonnet 0 1).callerAfter =
      sysMsgS :: [⟨"user".toList, .parts [⟨"text".toList, "hi".toList, none, none, true⟩]⟩] :=
  ⟨c6_in_place_mutation_amended.1 envOff orcX lorcY sysMsgS [userMsgHi] 0 1 (by decide) rfl,
   c6_in_place_mutation_amended.2 envOff orcX lorcY sysMsgS [userMsgHi] 0 1 _ (by decide) rfl rfl⟩

/-! ## Claim C7 -/

/-- A sequential effectful map on which every element succeeds returns the
list of successes. -/
theorem mapExc_ok_of_forall {α β : Type} (f : α → Except Str β) (F : α → β) :
    ∀ l : List α, (∀ a ∈ l, f a = .ok (F a)) → mapExc f l = .ok (l.map F) := by
  intro l
  induction l with
  | nil => intro _; rfl
  | cons a l ih =>
    intro h
    have ha := h a (by simp)
    have hrest := ih (fun x hx => h x (by simp [hx]))
    simp [mapExc, ha, hrest, Except.map]

/-- When every token of a list parses as an integer, converting them
returns exactly the parses, in order. -/
theorem mapExc_tok_ok : ∀ toks : List Str, (∀ t ∈ toks, (pyInt t).isSome) →
    mapExc tokToInt toks = .ok (toks.filterMap pyInt) := by
  intro toks
  induction toks with
  | nil => intro _; rfl
  | cons t ts ih =>
    intro h
    obtain ⟨v, hv⟩ := Option.isSome_iff_exists.mp (h t (by simp))
    have hrest := ih (fun x hx => h x (by simp [hx]))
    simp [mapExc, tokToInt, hv, hrest, List.filterMap_cons, Except.map]

/-- When every kept token of a row parses as an integer, the row's numbers
are exactly the parses, in order. -/
theorem rowNums_ok (row : Str) (h : ∀ t ∈ rowTokens row, (pyInt t).isSome) :
    rowNums row = .ok ((rowTokens row).filterMap pyInt) :=
  mapExc_tok_ok (rowTokens row) h

/-- Claim C7 counterexample: on the input "[[a]]" the matched row contains
the non-numeric token "a", and `parse_2d_arrays_from_string` raises
ValueError instead of ignoring it and returning normally. -/
theorem c7_nonnumeric_raises_counterexample :
    parse_2d_arrays_from_string "[[a]]".toList = .error "ValueError".toList := by rfl

/-- Claim C7 as amended: `parse_2d_arrays_from_string` returns normally
exactly on the tolerant part of the grammar — empty or whitespace-only
tokens (e.g. from trailing commas) are dropped per row, and when every
remaining token of every row of every match is an integer literal the
result is the ordered sequence of the 2-D grids as they appear in the
text; a non-numeric token, however, raises ValueError rather than being
ignored. -/
theorem c7_grid_parse_amended (s : Str)
    (h : ∀ g ∈ scanOuter s, ∀ r ∈ innerRows g, ∀ t ∈ rowTokens r, (pyInt t).isSome) :
    parse_2d_arrays_from_string s =
      .ok ((scanOuter s).map (fun g =>
        (innerRows g).map (fun r => (rowTokens r).filterMap pyInt))) := by
  unfold parse_2d_arrays_from_string
  apply mapExc_ok_of_forall
  intro g hg
  unfold groupToGrid
  apply mapExc_ok_of_forall
  intro r hr
  exact rowNums_ok r (h g hg r hr)

/-- Witness for Claim C7 as amended, at the spec's own example input. -/
theorem c7_grid_parse_witness :
    parse_2d_arrays_from_string "result: [[1,2],[3,4]] and [[5]]".toList =
      .ok [[[1, 2], [3, 4]], [[5]]] :=
  c7_grid_parse_amended "result: [[1,2],[3,4]] and [[5]]".toList (by decide)

/-! ## Claim C8 -/

/-- Claim C8 counterexample: with the NO_WIFI flag set, a fan-out
`get_next_messages` call on the Anthropic path still issues its provider
call and returns the provider text, not the canned response with zero
network activity. -/
theorem c8_no_wifi_orchestrator_counterexample :
    (get_next_messages envOn orcX lorcY [userMsgHi] Model.claude_3_5_sonnet 0 1).calls = 1 ∧
    (get_next_messages envOn orcX lorcY [userMsgHi] Model.claude_3_5_sonnet 0 1).ret =
      .ok (some [("X".toList, zeroUsage)]) ∧
    "X".toList ≠ cannedText :=
  ⟨rfl, rfl, by decide⟩

/-- Claim C8 as amended: the NO_WIFI flag short-circuits only the legacy
single-call path `get_next_message` (and hence the openrouter branch of
the orchestrator, which routes through it): under the flag that path
returns the fixed canned text with all-zero usage and zero network calls.
The direct provider branches of `get_next_messages` never read the flag —
whenever the Anthropic branch returns a list it has issued its full `n`
adapter calls, whatever the environment. -/
theorem c8_no_wifi_amended :
    (∀ (env : Env) (outcome : Except Str (Str × ModelUsage)), env.no_wifi = true →
       get_next_message env outcome = (.ok (cannedText, zeroUsage), 0)) ∧
    (∀ (env : Env) (orc : Nat → AttemptOutcome)
       (lorc : Nat → Nat → Except Str (Str × ModelUsage))
       (messages : List Message) (t : Int) (n : Nat) (v : List (Str × ModelUsage)),
       n ≠ 0 →
       (get_next_messages env orc lorc messages Model.claude_3_5_sonnet t n).ret =
         .ok (some v) →
       (get_next_messages env orc lorc messages Model.claude_3_5_sonnet t n).calls = n) := by
  constructor
  · intro env outcome h
    simp [get_next_message, h]
  · intro env orc lorc messages t n v hn hret
    simp only [get_next_messages, if_neg hn, anthropicBranch, Bool.false_eq_true, if_false]
      at hret ⊢
    cases messages with
    | nil => simp at hret
    | cons m rest =>
      dsimp only at hret ⊢
      cases hf : forceLastHint
          (anthropicMessages 0 (if m.role = "system".toList then rest else m :: rest)).1 with
      | error e =>
        rw [hf] at hret
        simp at hret
      | ok body2 => rfl

/-- Witness for Claim C8 as amended: the legacy path under NO_WIFI, and
the Anthropic fan-out path issuing its call under NO_WIFI. -/
theorem c8_no_wifi_witness :
    get_next_message envOn (.error "boom".toList) = (.ok (cannedText, zeroUsage), 0) ∧
    (get_next_messages envOn orcX lorcY [userMsgHi] Model.claude_3_5_sonnet 0 1).calls = 1 :=
  ⟨c8_no_wifi_amended.1 envOn (.error "boom".toList) rfl,
   c8_no_wifi_amended.2 envOn orcX lorcY [userMsgHi] 0 1 [("X".toList, zeroUsage)]
     (by decide) rfl⟩

/-! ## Claim C9 -/

/-- A character outside the separator and outside every piece is outside
the intercalation. -/
theorem lem_notMem_intercalate {x : Char} (sep : Str) (hsep : x ∉ sep) :
    ∀ ps : List Str, (∀ p ∈ ps, x ∉ p) → x ∉ List.intercalate sep ps := by
  intro ps
  induction ps with
  | nil => intro _; simp [List.intercalate]
  | cons a t ih =>
    intro h
    cases t with
    | nil => simpa [List.intercalate] using h a (by simp)
    | cons b t2 =>
      have hstep : List.intercalate sep (a :: b :: t2) =
          a ++ sep ++ List.intercalate sep (b :: t2) := by
        simp [List.intercalate, List.intersperse]
      rw [hstep]
      simp only [List.mem_append, not_or]
      exact ⟨⟨h a (by simp), hsep⟩, ih (fun p hp => h p (by simp [hp]))⟩

/-- No piece of a tab-split contains a tab (given a tab-free accumulator
and enough fuel). -/
theorem lem_splitTab_pieces : ∀ (fuel : Nat) (hay acc : Str), hay.length ≤ fuel →
    (∀ c ∈ acc, c ≠ '\t') → ∀ p ∈ splitOnSubF ['\t'] fuel hay acc, '\t' ∉ p := by
  intro fuel
  induction fuel with
  | zero =>
    intro hay acc hlen hacc p hp
    have hhay : hay = [] := by
      cases hay with
      | nil => rfl
      | cons c r => simp at hlen
    subst hhay
    simp only [splitOnSubF, List.mem_singleton] at hp
    subst hp
    intro hx
    exact (hacc _ (List.mem_reverse.mp hx)) rfl
  | succ fuel ih =>
    intro hay acc hlen hacc p hp
    cases hay with
    | nil =>
      simp only [splitOnSubF, List.mem_singleton] at hp
      subst hp
      intro hx
      exact (hacc _ (List.mem_reverse.mp hx)) rfl
    | cons c rest =>
      simp only [splitOnSubF] at hp
      have hlen2 : rest.length ≤ fuel := by
        simp only [List.length_cons] at hlen; omega
      by_cases hpre : List.isPrefixOf ['\t'] (c :: rest)
      · rw [if_pos hpre] at hp
        rcases List.mem_cons.mp hp with h1 | h2
        · subst h1
          intro hx
          exact (hacc _ (List.mem_reverse.mp hx)) rfl
        · have hd : List.drop (['\t'].length - 1) rest = rest := by simp
          rw [hd] at h2
          exact ih rest [] hlen2 (by simp) p h2
      · rw [if_neg hpre] at hp
        have hc : c ≠ '\t' := by
          intro hEq
          apply hpre
          subst hEq
          simp [List.isPrefixOf]
        refine ih rest (c :: acc) hlen2 ?_ p hp
        intro x hx
        rcases List.mem_cons.mp hx with h1 | h1
        · subst h1; exact hc
        · exact hacc x h1

/-- The cleaned code never contains a tab: `clean_code` replaces each tab
by four spaces. -/
theorem lem_tab_notin_clean_code (s : Str) : '\t' ∉ clean_code s := by
  unfold clean_code replaceAllSub splitOnSub
  apply lem_notMem_intercalate
  · decide
  · intro p hp
    exact lem_splitTab_pieces s.length s [] (Nat.le_refl _) (by simp) p hp

/-- Every successful result of the extraction stage is tab-free. -/
theorem extractStage_no_tab (s out : Str) (h : extractStage s = .ok out) : '\t' ∉ out := by
  unfold extractStage at h
  cases h1 : reSearchFence s closeFenceNl with
  | some g =>
    rw [h1] at h
    injection h with h2
    subst h2
    exact lem_tab_notin_clean_code g
  | none =>
    rw [h1] at h
    cases h2 : reSearchFence s closeTickNl with
    | some g =>
      rw [h2] at h
      injection h with h3
      subst h3
      exact lem_tab_notin_clean_code g
    | none =>
      rw [h2] at h
      injection h with h3
      subst h3
      exact lem_tab_notin_clean_code _

/-- Claim C9: for every input string, a string returned by
`parse_python_backticks` contains no tab character — every return path
passes through `clean_code` (tabs become four spaces) or returns the
tab-free placeholder stub `noop_code`. -/
theorem c9_no_tab_in_parsed_code (s out : Str)
    (h : parse_python_backticks s = .ok out) : '\t' ∉ out := by
  unfold parse_python_backticks at h
  by_cases h0 : countSub s fenceStr = 0
  · rw [if_pos h0] at h
    dsimp only at h
    by_cases hout : partitionAfter s reasoningClose = []
    · rw [if_pos hout] at h
      injection h with h2
      subst h2
      decide
    · rw [if_neg hout] at h
      injection h with h2
      subst h2
      exact lem_tab_notin_clean_code _
  · rw [if_neg h0] at h
    dsimp only at h
    generalize (if 1 < countSub s fenceStr then
        match ((splitOnSub s fenceStr).reverse).find?
            (fun chunk => containsSub chunk transformMarker) with
        | some chunk => fenceStr ++ chunk
        | none => s
      else s) = s1 at h
    by_cases h2 : countSub s1 fenceStr = 1
    · rw [if_pos h2] at h
      exact extractStage_no_tab s1 out h
    · rw [if_neg h2] at h
      simp at h

/-- Witness for Claim C9 at an input with no fenced region and no
reasoning delimiter, whose result is the placeholder stub. -/
theorem c9_no_tab_witness : '\t' ∉ noop_code :=
  c9_no_tab_in_parsed_code "hello".toList noop_code rfl

/-! ## Claim C10 -/

/-- Claim C10 counterexample: a message whose content is the empty string
is kept by `text_only_messages` (the collected list `[""]` is non-empty,
hence truthy), while the claim as stated drops it. -/
theorem c10_empty_string_counterexample :
    text_only_messages [⟨"user".toList, .str []⟩] ≠
      text_only_claimed [⟨"user".toList, .str []⟩] := by decide

/-- Claim C10 as amended: `text_only_messages` keeps exactly the messages
whose content is a string (of any length, including empty) or whose part
list contains a part of type "text", in their original relative order,
each with its original role and with content the newline-join of its text
parts; part-list messages with no text part are dropped. -/
theorem c10_text_only_amended (messages : List Message) :
    text_only_messages messages = text_only_amended messages := by
  unfold text_only_messages text_only_amended
  apply List.filterMap_congr
  intro m _
  cases hm : m.content with
  | str s =>
    have hj : joinNl [s] = s := by simp [joinNl, List.intercalate]
    simp only [hm]
    simp [hj]
  | parts ps =>
    simp only [hm]
